import Mathlib

/-!
Shallow embedding of the TwiST framework core (Event Bus, Device Registry,
Servo motion and calibration engine) and proofs of the specification claims.

Sources embedded:
- EventBus.cpp / EventBus.h (subscription table, ring-buffer event queue,
  priority-ordered dispatch),
- DeviceRegistry.cpp / DeviceRegistry.h (device table, capability counts),
- Servo.cpp / Servo.h (calibration mapping, easing, animation state machine).

Machine integers are modelled as Nat with explicit reductions modulo 2^16 or
2^32 exactly where the C code performs a narrowing assignment or relies on
unsigned wraparound.  C float arithmetic is modelled over the rationals; the
C cast from float to uint16_t truncates toward zero and is undefined outside
the representable range, so it is modelled as floor-then-toNat, which agrees
with the source wherever the source is defined.  Callbacks (C function
pointers) are modelled as opaque numeric handles; dispatch is modelled as the
trace of (slot, event) invocations, so the bus state is not mutated by the
callbacks themselves.  The global Logger is an external collaborator: only
the warning and error messages that make failure observable are recorded in
a log field; info-level messages are omitted.
-/

namespace TwiST

/-- MAX_EVENT_LISTENERS from EventBus.h. -/
def MAX_EVENT_LISTENERS : Nat := 32

/-- MAX_EVENT_QUEUE from EventBus.h. -/
def MAX_EVENT_QUEUE : Nat := 16

/-- EventPriority enum: PRIORITY_LOW = 0, PRIORITY_NORMAL = 10,
PRIORITY_HIGH = 20, PRIORITY_CRITICAL = 30. -/
inductive EventPriority where
  | low
  | normal
  | high
  | critical
deriving DecidableEq, Repr

/-- Numeric values of the EventPriority enumerators. -/
def EventPriority.toNat : EventPriority → Nat
  | .low => 0
  | .normal => 10
  | .high => 20
  | .critical => 30

/-- Event struct: name (const char*, may be NULL), sourceDeviceId (uint16,
0 = system), data (void*, opaque, may be NULL), priority, timestamp. -/
structure Event where
  name : Option String
  sourceDeviceId : Nat
  data : Option Nat
  priority : EventPriority
  timestamp : Nat
deriving DecidableEq, Repr

/-- The value the EventBus constructor leaves in unused queue slots: the
constructor only nulls name and data; the remaining fields are never read
before being overwritten and are given fixed defaults here. -/
def defaultEvent : Event :=
  { name := none, sourceDeviceId := 0, data := none,
    priority := .normal, timestamp := 0 }

/-- EventSubscription slot: id, eventName (const char*, may be NULL),
callback (function pointer, modelled as an opaque handle, may be NULL),
priority, active flag. -/
structure Listener where
  id : Nat
  eventName : Option String
  callback : Option Nat
  priority : EventPriority
  active : Bool
deriving DecidableEq, Repr

/-- A listener slot as initialized by the EventBus constructor. -/
def defaultListener : Listener :=
  { id := 0, eventName := none, callback := none,
    priority := .normal, active := false }

/-- EventBus state: fixed listener table, fixed ring-buffer event queue,
counters, and the recorded warning/error log messages. -/
structure EventBus where
  listeners : List Listener
  listenerCount : Nat
  nextListenerId : Nat
  queue : List Event
  queueHead : Nat
  queueTail : Nat
  queueSize : Nat
  totalEventCount : Nat
  log : List String
deriving DecidableEq, Repr

/-- The EventBus constructor. -/
def initialEventBus : EventBus :=
  { listeners := List.replicate MAX_EVENT_LISTENERS defaultListener,
    listenerCount := 0,
    nextListenerId := 1,
    queue := List.replicate MAX_EVENT_QUEUE defaultEvent,
    queueHead := 0,
    queueTail := 0,
    queueSize := 0,
    totalEventCount := 0,
    log := [] }

/-- EventBus::subscribe.  Returns the pair (returned id, new state).
The source checks only for NULL arguments (an empty string is not NULL),
then for a full table, then scans for the first inactive slot; the id
counter is a uint16 incremented on success. -/
def EventBus.subscribe (b : EventBus) (eventName : Option String)
    (listener : Option Nat) (priority : EventPriority) : Nat × EventBus :=
  if eventName = none ∨ listener = none then
    (0, { b with log := "Cannot subscribe with NULL eventName or listener" :: b.log })
  else if b.listenerCount ≥ MAX_EVENT_LISTENERS then
    (0, { b with log := "Listener limit reached" :: b.log })
  else
    match (List.range MAX_EVENT_LISTENERS).find?
        (fun i => !(b.listeners.getD i defaultListener).active) with
    | some i =>
        (b.nextListenerId,
         { b with
            listeners := b.listeners.set i
              { id := b.nextListenerId, eventName := eventName,
                callback := listener, priority := priority, active := true },
            listenerCount := b.listenerCount + 1,
            nextListenerId := (b.nextListenerId + 1) % 65536 })
    | none => (0, b)

/-- EventBus::unsubscribe: deactivates the first active slot whose id
matches; silent no-op otherwise.  The source resets id, eventName and
callback but leaves the priority field untouched. -/
def EventBus.unsubscribe (b : EventBus) (listenerId : Nat) : EventBus :=
  match (List.range MAX_EVENT_LISTENERS).find?
      (fun i => (b.listeners.getD i defaultListener).active
        && (b.listeners.getD i defaultListener).id == listenerId) with
  | some i =>
      { b with
         listeners := b.listeners.set i
           { (b.listeners.getD i defaultListener) with
              active := false, id := 0, eventName := none, callback := none },
         listenerCount := b.listenerCount - 1 }
  | none => b

/-- EventBus::eventMatches: exact string match, false when either side is
NULL. -/
def eventMatches (eventName pat : Option String) : Bool :=
  match eventName, pat with
  | some a, some b => a == b
  | _, _ => false

/-- Whether listener slot i is invoked for the event within the tier of
priority p: active, priority equal to p, name match, non-NULL callback. -/
def invokedInTier (ls : List Listener) (ev : Event) (p : EventPriority)
    (i : Nat) : Bool :=
  let l := ls.getD i defaultListener
  l.active && (l.priority == p) && eventMatches ev.name l.eventName
    && l.callback.isSome

/-- Whether listener slot i is invoked at all for the event. -/
def invokedFor (ls : List Listener) (ev : Event) (i : Nat) : Bool :=
  let l := ls.getD i defaultListener
  l.active && eventMatches ev.name l.eventName && l.callback.isSome

/-- The slot indices invoked within one priority tier, in ascending slot
order, mirroring the inner loop of EventBus::triggerListeners. -/
def tierOrder (ls : List Listener) (ev : Event) (p : EventPriority) :
    List Nat :=
  (List.range MAX_EVENT_LISTENERS).filter (invokedInTier ls ev p)

/-- The slot indices invoked by EventBus::triggerListeners, in invocation
order: the outer loop walks the priority tiers from PRIORITY_CRITICAL (30)
down to PRIORITY_LOW (0) in steps of 10, the inner loop walks the slots in
ascending order. -/
def invocationOrder (ls : List Listener) (ev : Event) : List Nat :=
  tierOrder ls ev .critical ++ tierOrder ls ev .high
    ++ tierOrder ls ev .normal ++ tierOrder ls ev .low

/-- The invocation trace of EventBus::triggerListeners: which callback slot
is called with which event, in order. -/
def triggerListeners (ls : List Listener) (ev : Event) : List (Nat × Event) :=
  (invocationOrder ls ev).map (fun i => (i, ev))

/-- EventBus::publish: no-op when the name is NULL, otherwise bumps the
total counter and synchronously dispatches via triggerListeners.  Returns
the new state and the invocation trace. -/
def EventBus.publish (b : EventBus) (ev : Event) :
    EventBus × List (Nat × Event) :=
  if ev.name = none then (b, [])
  else ({ b with totalEventCount := b.totalEventCount + 1 },
        triggerListeners b.listeners ev)

/-- EventBus::publishAsync at time now (millis() at the call): no-op when
the name is NULL; when the ring buffer is full the event is dropped and a
warning is logged; otherwise the event is stored at the tail with the
enqueue timestamp and the tail and size advance. -/
def EventBus.publishAsync (b : EventBus) (ev : Event) (now : Nat) : EventBus :=
  if ev.name = none then b
  else if b.queueSize ≥ MAX_EVENT_QUEUE then
    { b with log := "Event queue full, dropping event" :: b.log }
  else
    { b with
       queue := b.queue.set b.queueTail { ev with timestamp := now },
       queueTail := (b.queueTail + 1) % MAX_EVENT_QUEUE,
       queueSize := b.queueSize + 1 }

/-- EventBus::getPendingEventCount. -/
def EventBus.getPendingEventCount (b : EventBus) : Nat := b.queueSize

/-- One iteration of the EventBus::processEvents while loop, fuelled by the
queue size (which decreases by exactly one per iteration).  Returns the new
state and the concatenated invocation trace. -/
def processEventsGo : Nat → EventBus → EventBus × List (Nat × Event)
  | 0, b => (b, [])
  | fuel + 1, b =>
      if b.queueSize = 0 then (b, [])
      else
        let ev := b.queue.getD b.queueHead defaultEvent
        let b1 := { b with
                     queueHead := (b.queueHead + 1) % MAX_EVENT_QUEUE,
                     queueSize := b.queueSize - 1,
                     totalEventCount := b.totalEventCount + 1 }
        let rest := processEventsGo fuel b1
        (rest.1, triggerListeners b.listeners ev ++ rest.2)

/-- EventBus::processEvents: drains the ring buffer in FIFO order,
dispatching each dequeued event through triggerListeners. -/
def EventBus.processEvents (b : EventBus) : EventBus × List (Nat × Event) :=
  processEventsGo b.queueSize b

/-- The queued events in FIFO (dequeue) order: queueSize entries starting at
queueHead, wrapping modulo MAX_EVENT_QUEUE. -/
def fifoEvents (b : EventBus) : List Event :=
  (List.range b.queueSize).map
    (fun k => b.queue.getD ((b.queueHead + k) % MAX_EVENT_QUEUE) defaultEvent)

/-! ## Device Registry (DeviceRegistry.cpp / DeviceRegistry.h) -/

/-- MAX_DEVICES from DeviceRegistry.h. -/
def MAX_DEVICES : Nat := 32

/-- DeviceCapability bit CAP_INPUT = 0x01. -/
def CAP_INPUT : Nat := 1

/-- DeviceCapability bit CAP_OUTPUT = 0x02. -/
def CAP_OUTPUT : Nat := 2

/-- The registry-visible face of an IDevice: its stable id (info.id), its
capability bitset (getCapabilities) and its enabled flag (isEnabled).  The
registry stores non-owning references; the referenced object is modelled by
value since the registry never mutates it. -/
structure RegDevice where
  id : Nat
  caps : Nat
  enabled : Bool
deriving DecidableEq, Repr

/-- IDevice::hasCapability: bitmask intersection test. -/
def RegDevice.hasCapability (d : RegDevice) (cap : Nat) : Bool :=
  d.caps &&& cap != 0

/-- DeviceRegistry state: the first deviceCount array entries, in
registration order (entries below the count are never NULL in the source). -/
structure DeviceRegistry where
  devices : List RegDevice
deriving DecidableEq, Repr

/-- The DeviceRegistry constructor. -/
def emptyRegistry : DeviceRegistry := { devices := [] }

/-- DeviceRegistry::getDeviceCount. -/
def DeviceRegistry.getDeviceCount (r : DeviceRegistry) : Nat :=
  r.devices.length

/-- DeviceRegistry::findDevice: linear scan, first id match. -/
def DeviceRegistry.findDevice (r : DeviceRegistry) (deviceId : Nat) :
    Option RegDevice :=
  r.devices.find? (fun d => d.id == deviceId)

/-- DeviceRegistry::registerDevice: fails when the table is full or the id
is already present, otherwise appends at index deviceCount. -/
def DeviceRegistry.registerDevice (r : DeviceRegistry) (d : RegDevice) :
    Bool × DeviceRegistry :=
  if r.devices.length ≥ MAX_DEVICES then (false, r)
  else if (r.findDevice d.id).isSome then (false, r)
  else (true, { devices := r.devices ++ [d] })

/-- The shift-down loop of DeviceRegistry::unregisterDevice: removes the
first entry whose id matches, keeping all other entries in order; none when
no entry matches. -/
def removeFirstDevice (deviceId : Nat) : List RegDevice →
    Option (List RegDevice)
  | [] => none
  | d :: ds =>
      if d.id = deviceId then some ds
      else (removeFirstDevice deviceId ds).map (fun l => d :: l)

/-- DeviceRegistry::unregisterDevice: true and the shifted table when the id
was found, false and the unchanged table otherwise. -/
def DeviceRegistry.unregisterDevice (r : DeviceRegistry) (deviceId : Nat) :
    Bool × DeviceRegistry :=
  match removeFirstDevice deviceId r.devices with
  | some ds => (true, { devices := ds })
  | none => (false, r)

/-- DeviceRegistry::getInputDeviceCount: devices with CAP_INPUT. -/
def DeviceRegistry.getInputDeviceCount (r : DeviceRegistry) : Nat :=
  (r.devices.filter (fun d => d.hasCapability CAP_INPUT)).length

/-- DeviceRegistry::getOutputDeviceCount: devices with CAP_OUTPUT. -/
def DeviceRegistry.getOutputDeviceCount (r : DeviceRegistry) : Nat :=
  (r.devices.filter (fun d => d.hasCapability CAP_OUTPUT)).length

/-- The number of registered devices holding both CAP_INPUT and CAP_OUTPUT
(the overlap term of the capability-count identity). -/
def DeviceRegistry.bothCount (r : DeviceRegistry) : Nat :=
  (r.devices.filter
    (fun d => d.hasCapability CAP_INPUT && d.hasCapability CAP_OUTPUT)).length

/-- DeviceRegistry::forEach visit trace: the callback sees every (non-NULL)
entry below deviceCount in array order; recorded as the list of visited
device ids. -/
def DeviceRegistry.forEachTrace (r : DeviceRegistry) : List Nat :=
  r.devices.map (fun d => d.id)

/-- DeviceRegistry::updateAll visit trace: update() is called on every
enabled device, in array order; recorded as the list of visited ids. -/
def DeviceRegistry.updateAllTrace (r : DeviceRegistry) : List Nat :=
  (r.devices.filter (fun d => d.enabled)).map (fun d => d.id)

/-- A register-or-unregister call, for quantifying over call sequences. -/
inductive RegOp where
  | register (d : RegDevice)
  | unregister (deviceId : Nat)
deriving DecidableEq, Repr

/-- Apply one registry call, discarding the returned success flag. -/
def applyRegOp (r : DeviceRegistry) : RegOp → DeviceRegistry
  | .register d => (r.registerDevice d).2
  | .unregister i => (r.unregisterDevice i).2

/-- Run a sequence of registry calls from a starting state. -/
def runRegOps (ops : List RegOp) (r : DeviceRegistry) : DeviceRegistry :=
  ops.foldl applyRegOp r

/-! ## Servo motion and calibration engine (Servo.cpp / Servo.h) -/

/-- Servo::EasingType. -/
inductive EasingType where
  | easeLinear
  | easeInQuad
  | easeOutQuad
  | easeInOutQuad
  | easeInCubic
  | easeOutCubic
deriving DecidableEq, Repr

/-- DeviceState enum from IDevice.h. -/
inductive DeviceState where
  | uninitialized
  | initializing
  | ready
  | active
  | error
  | disabled
deriving DecidableEq, Repr

/-- The C cast from float to uint16_t: truncation toward zero.  For a
nonnegative argument this is the floor; a negative or out-of-range argument
is undefined behavior in the source, so no claim depends on those inputs. -/
def castU16 (q : ℚ) : Nat := (Int.floor q).toNat

/-- The Servo device state: construction parameters (locked PWM channel,
device id, the injected driver constant getMaxPWM), lifecycle state, the
two calibration modes, the tracked current angle and the animation state;
initializers as declared in Servo.h. -/
structure ServoState where
  channel : Nat
  deviceId : Nat
  maxPWM : Nat
  state : DeviceState := .uninitialized
  enabled : Bool := true
  minPulse : ℚ := 500
  maxPulse : ℚ := 2500
  minAngle : ℚ := 0
  maxAngle : ℚ := 180
  currentAngle : ℚ := 90
  useStepMode : Bool := false
  stepMin : Nat := 0
  stepMax : Nat := 4095
  stepRange : ℚ := 4095
  angleRange : ℚ := 180
  startAngle : ℚ := 90
  targetAngle : ℚ := 90
  animationStart : Nat := 0
  animationDuration : Nat := 0
  easingType : EasingType := .easeLinear
  isPaused : Bool := false
  pausedAt : Nat := 0
  pausedDuration : Nat := 0
  degreesPerSecond : ℚ := 0
deriving DecidableEq, Repr

/-- The result of a Servo operation: the new device state, the PWM writes
(channel, raw value) issued through the injected IPWMDriver, and the events
published on the Event Bus, each in issue order. -/
structure ServoEffect where
  servo : ServoState
  writes : List (Nat × Nat)
  published : List Event
deriving DecidableEq, Repr

/-- Servo::mapAngleToPWM.  Step mode converts the angle directly to PWM
ticks; the inner float-to-uint16 cast truncates and the outer uint16
assignment of stepMin + ticks reduces modulo 2^16.  Microseconds mode maps
the angle to a pulse width and divides by the tick width
20000 / getMaxPWM(). -/
def ServoState.mapAngleToPWM (s : ServoState) (angle : ℚ) : Nat :=
  if s.useStepMode then
    let normalizedAngle := (angle - s.minAngle) / s.angleRange
    (s.stepMin + castU16 (normalizedAngle * s.stepRange)) % 65536
  else
    let pulseUs := s.minPulse
      + ((angle - s.minAngle) / (s.maxAngle - s.minAngle)) * (s.maxPulse - s.minPulse)
    castU16 (pulseUs / (20000 / (s.maxPWM : ℚ)))

/-- The clamp at the head of Servo::applyEasing: raise to 0, then lower
to 1 (two sequential ifs, exactly as in the source). -/
def clamp01 (t : ℚ) : ℚ :=
  let t1 := if t < 0 then 0 else t
  if t1 > 1 then 1 else t1

/-- Servo::applyEasing: the argument is clamped to [0,1], then the selected
easing polynomial is applied. -/
def applyEasing (t0 : ℚ) (type : EasingType) : ℚ :=
  let t := clamp01 t0
  match type with
  | .easeLinear => t
  | .easeInQuad => t * t
  | .easeOutQuad => t * (2 - t)
  | .easeInOutQuad => if t < 1/2 then 2 * t * t else -1 + (4 - 2 * t) * t
  | .easeInCubic => t * t * t
  | .easeOutCubic => (t - 1) * (t - 1) * (t - 1) + 1

/-- The input clamp at the head of Servo::setValue: raise to minAngle, then
lower to maxAngle. -/
def ServoState.clampAngle (s : ServoState) (angle : ℚ) : ℚ :=
  let a := if angle < s.minAngle then s.minAngle else angle
  if a > s.maxAngle then s.maxAngle else a

/-- Servo::setValue: clamps the input angle to the calibrated range, tracks
it as the current angle, and writes the mapped raw value to the locked PWM
channel.  No event is published by the source. -/
def ServoState.setValue (s : ServoState) (angle : ℚ) : ServoEffect :=
  let a := s.clampAngle angle
  { servo := { s with currentAngle := a },
    writes := [(s.channel, s.mapAngleToPWM a)],
    published := [] }

/-- Servo::setAngle: delegates to setValue. -/
def ServoState.setAngle (s : ServoState) (angle : ℚ) : ServoEffect :=
  s.setValue angle

/-- Servo::setNormalized: maps 0.0-1.0 onto the angle range, then
setValue. -/
def ServoState.setNormalized (s : ServoState) (value : ℚ) : ServoEffect :=
  s.setValue (s.minAngle + value * (s.maxAngle - s.minAngle))

/-- Servo::getValue. -/
def ServoState.getValue (s : ServoState) : ℚ := s.currentAngle

/-- Servo::isMoving. -/
def ServoState.isMoving (s : ServoState) : Bool := s.animationDuration > 0

/-- The elapsed animation time computed by Servo::update at time now:
now - animationStart - pausedDuration in 32-bit unsigned arithmetic. -/
def elapsedTime (s : ServoState) (now : Nat) : Nat :=
  (((now : ℤ) - s.animationStart - s.pausedDuration) % (2 ^ 32)).toNat

/-- Servo::update at time now (millis() at the call): no-op unless enabled,
Ready and not paused; while an animation is active, snaps to the target and
goes Idle once the elapsed time reaches the duration, otherwise writes the
eased interpolation between the start and target angles. -/
def ServoState.update (s : ServoState) (now : Nat) : ServoEffect :=
  if !s.enabled || s.state ≠ .ready then { servo := s, writes := [], published := [] }
  else if s.isPaused then { servo := s, writes := [], published := [] }
  else if s.animationDuration > 0 then
    let elapsed := elapsedTime s now
    if elapsed ≥ s.animationDuration then
      let e := s.setValue s.targetAngle
      { e with servo := { e.servo with animationDuration := 0 } }
    else
      let t := (elapsed : ℚ) / (s.animationDuration : ℚ)
      let easedT := applyEasing t s.easingType
      let angle := s.startAngle + easedT * (s.targetAngle - s.startAngle)
      s.setValue angle
  else { servo := s, writes := [], published := [] }

/-- Servo::moveTo at time now: records the animation parameters with linear
easing; a zero duration performs the write immediately and stays Idle. -/
def ServoState.moveTo (s : ServoState) (target : ℚ) (duration now : Nat) :
    ServoEffect :=
  let s1 := { s with
               startAngle := s.currentAngle,
               targetAngle := target,
               animationDuration := duration,
               animationStart := now,
               easingType := .easeLinear,
               pausedDuration := 0,
               isPaused := false }
  if duration = 0 then
    let e := s1.setValue target
    { e with servo := { e.servo with animationDuration := 0 } }
  else
    { servo := s1, writes := [], published := [] }

/-- Servo::calibrateBySteps: stores the step-mode calibration (the step
range is computed in int arithmetic, hence exact) and switches to step
mode. -/
def ServoState.calibrateBySteps (s : ServoState) (minStep maxStep : Nat)
    (minAngle maxAngle : ℚ) : ServoState :=
  { s with
     stepMin := minStep,
     stepMax := maxStep,
     stepRange := (maxStep : ℚ) - (minStep : ℚ),
     minAngle := minAngle,
     maxAngle := maxAngle,
     angleRange := maxAngle - minAngle,
     useStepMode := true }

/-- Servo::calibrate: stores the microseconds-mode calibration and switches
to microseconds mode. -/
def ServoState.calibrate (s : ServoState) (minPulse maxPulse : ℚ)
    (minAngle maxAngle : ℚ) : ServoState :=
  { s with
     minPulse := minPulse,
     maxPulse := maxPulse,
     minAngle := minAngle,
     maxAngle := maxAngle,
     useStepMode := false }

/-! ## Helper lemmas -/

/-- The easing clamp lands in the unit interval. -/
lemma clamp01_nonneg (t : ℚ) : 0 ≤ clamp01 t := by
  simp only [clamp01]
  split_ifs <;> linarith

/-- The easing clamp lands in the unit interval. -/
lemma clamp01_le_one (t : ℚ) : clamp01 t ≤ 1 := by
  simp only [clamp01]
  split_ifs <;> linarith

/-- The easing clamp fixes 0. -/
lemma clamp01_zero : clamp01 0 = 0 := by
  simp only [clamp01]
  norm_num

/-- The easing clamp fixes 1. -/
lemma clamp01_one : clamp01 1 = 1 := by
  simp only [clamp01]
  norm_num

/-- The setValue input clamp fixes angles inside the calibrated range. -/
lemma ServoState.clampAngle_eq_self (s : ServoState) (a : ℚ)
    (h1 : s.minAngle ≤ a) (h2 : a ≤ s.maxAngle) : s.clampAngle a = a := by
  simp only [ServoState.clampAngle]
  rw [if_neg (not_lt.mpr h1), if_neg (not_lt.mpr h2)]

/-- Truncation toward zero is monotone (both floor and toNat are). -/
lemma castU16_mono {p q : ℚ} (h : p ≤ q) : castU16 p ≤ castU16 q :=
  Int.toNat_le_toNat (Int.floor_mono h)

/-- Truncation is exact on natural numbers. -/
lemma castU16_natCast (n : Nat) : castU16 (n : ℚ) = n := by
  simp [castU16]

/-- Truncation of a value bounded by a natural number stays bounded. -/
lemma castU16_le_of_le {q : ℚ} {n : Nat} (h : q ≤ (n : ℚ)) : castU16 q ≤ n := by
  calc castU16 q ≤ castU16 (n : ℚ) := castU16_mono h
    _ = n := castU16_natCast n

/-- One publishAsync call with a non-NULL name grows the queue size by one
unless the ring buffer is already full. -/
lemma publishAsync_size (b : EventBus) (ev : Event) (now : Nat)
    (h : ev.name ≠ none) :
    (b.publishAsync ev now).queueSize
      = if MAX_EVENT_QUEUE ≤ b.queueSize then b.queueSize
        else b.queueSize + 1 := by
  unfold EventBus.publishAsync
  rw [if_neg h]
  split_ifs with hf
  · rfl
  · rfl

/-- The queue size after a burst of publishAsync calls with non-NULL names
is the old size plus the number of calls, saturated at the capacity. -/
lemma publishAsync_foldl_size (calls : List (Event × Nat)) (b : EventBus)
    (hnames : ∀ c ∈ calls, c.1.name ≠ none)
    (hle : b.queueSize ≤ MAX_EVENT_QUEUE) :
    (calls.foldl (fun st c => st.publishAsync c.1 c.2) b).queueSize
      = min (b.queueSize + calls.length) MAX_EVENT_QUEUE := by
  induction calls generalizing b with
  | nil =>
      simp only [List.foldl_nil, List.length_nil]
      omega
  | cons c cs ih =>
      rw [List.foldl_cons]
      have hc : c.1.name ≠ none := hnames c (List.mem_cons_self _ _)
      have hrest : ∀ x ∈ cs, x.1.name ≠ none := fun x hx =>
        hnames x (List.mem_cons_of_mem _ hx)
      have hstep := publishAsync_size b c.1 c.2 hc
      have hle2 : (b.publishAsync c.1 c.2).queueSize ≤ MAX_EVENT_QUEUE := by
        rw [hstep]
        split_ifs <;> omega
      rw [ih _ hrest hle2, hstep]
      simp only [List.length_cons]
      split_ifs <;> omega

/-- A removed entry yields a strict sub-sequence of the device table. -/
lemma removeFirstDevice_sublist {i : Nat} :
    ∀ {l l' : List RegDevice}, removeFirstDevice i l = some l' → List.Sublist l' l := by
  intro l
  induction l with
  | nil => intro l' h; simp [removeFirstDevice] at h
  | cons d ds ih =>
      intro l' h
      simp only [removeFirstDevice] at h
      split_ifs at h with hd
      · cases h
        exact (List.Sublist.refl ds).cons d
      · cases o : removeFirstDevice i ds with
        | none =>
            rw [o] at h
            exact Option.noConfusion h
        | some ds' =>
            rw [o] at h
            injection h with h2
            subst h2
            exact (ih o).cons₂ d

/-- When no entry matches, the shift-down loop finds nothing. -/
lemma removeFirstDevice_eq_none {i : Nat} {l : List RegDevice}
    (h : ∀ d ∈ l, d.id ≠ i) : removeFirstDevice i l = none := by
  induction l with
  | nil => rfl
  | cons d ds ih =>
      simp only [removeFirstDevice]
      rw [if_neg (h d (List.mem_cons_self d ds))]
      rw [ih fun e he => h e (List.mem_cons_of_mem d he)]
      rfl

/-- The shift-down loop removes exactly the first matching entry. -/
lemma removeFirstDevice_append {i : Nat} (pre : List RegDevice)
    (d : RegDevice) (post : List RegDevice) (hd : d.id = i)
    (hpre : ∀ e ∈ pre, e.id ≠ i) :
    removeFirstDevice i (pre ++ d :: post) = some (pre ++ post) := by
  induction pre with
  | nil =>
      simp only [List.nil_append, removeFirstDevice]
      rw [if_pos hd]
  | cons e es ih =>
      have ihx := ih fun x hx => hpre x (List.mem_cons_of_mem e hx)
      show (if e.id = i then some (es ++ d :: post)
        else (removeFirstDevice i (es ++ d :: post)).map (fun l => e :: l))
          = some (e :: es ++ post)
      rw [if_neg (hpre e (List.mem_cons_self e es)), ihx]
      rfl

/-- unregisterDevice never disturbs the relative order of the survivors. -/
lemma unregisterDevice_devices_sublist (r : DeviceRegistry) (i : Nat) :
    List.Sublist (r.unregisterDevice i).2.devices r.devices := by
  unfold DeviceRegistry.unregisterDevice
  cases h : removeFirstDevice i r.devices with
  | none => exact List.Sublist.refl _
  | some ds => exact removeFirstDevice_sublist h

/-- Any burst of unregisterDevice calls leaves a sub-sequence of the
original device table. -/
lemma foldUnreg_sublist (removals : List Nat) (r : DeviceRegistry) :
    List.Sublist (removals.foldl (fun st i => (st.unregisterDevice i).2) r).devices
      r.devices := by
  induction removals generalizing r with
  | nil => exact List.Sublist.refl _
  | cons i is ih =>
      rw [List.foldl_cons]
      exact (ih _).trans (unregisterDevice_devices_sublist r i)

/-- Whether a RegOp registers a device holding Input or Output. -/
def regOpInOut : RegOp → Bool
  | .register d => d.hasCapability CAP_INPUT || d.hasCapability CAP_OUTPUT
  | .unregister _ => true

/-- A device present after one registry call was either present before or
is the device registered by that call. -/
lemma applyRegOp_mem {r : DeviceRegistry} {op : RegOp} {d : RegDevice}
    (h : d ∈ (applyRegOp r op).devices) :
    d ∈ r.devices ∨ ∃ d', op = RegOp.register d' ∧ d = d' := by
  cases op with
  | register d0 =>
      simp only [applyRegOp, DeviceRegistry.registerDevice] at h
      split_ifs at h with h1 h2
      · exact Or.inl h
      · exact Or.inl h
      · rcases List.mem_append.mp h with hm | hm
        · exact Or.inl hm
        · exact Or.inr ⟨d0, rfl, List.mem_singleton.mp hm⟩
  | unregister i =>
      exact Or.inl ((unregisterDevice_devices_sublist r i).subset h)

/-- One registry call preserves distinctness of the stored ids. -/
lemma applyRegOp_nodup {r : DeviceRegistry} {op : RegOp}
    (h : (r.devices.map RegDevice.id).Nodup) :
    (((applyRegOp r op).devices.map RegDevice.id)).Nodup := by
  cases op with
  | register d0 =>
      simp only [applyRegOp, DeviceRegistry.registerDevice]
      split_ifs with h1 h2
      · exact h
      · exact h
      · have hnotin : d0.id ∉ r.devices.map RegDevice.id := by
          intro hin
          rcases List.mem_map.mp hin with ⟨e, he, hid⟩
          have : r.findDevice d0.id ≠ none := by
            intro hnone
            have := List.find?_eq_none.mp hnone e he
            simp [hid] at this
          rw [Option.isSome_iff_ne_none] at h2
          exact h2 this
        rw [List.map_append]
        rw [List.nodup_append]
        refine ⟨h, List.nodup_singleton _, ?_⟩
        intro a ha hb
        rw [List.map_singleton, List.mem_singleton] at hb
        subst hb
        exact hnotin ha
  | unregister i =>
      exact h.sublist ((unregisterDevice_devices_sublist r i).map RegDevice.id)

/-- Running a call sequence preserves the id-distinctness invariant and the
property that every stored device holds Input or Output. -/
lemma runRegOps_inv (ops : List RegOp) (r : DeviceRegistry)
    (hnodup : (r.devices.map RegDevice.id).Nodup)
    (hmem : ∀ d ∈ r.devices,
      d.hasCapability CAP_INPUT = true ∨ d.hasCapability CAP_OUTPUT = true)
    (hops : ops.all regOpInOut = true) :
    ((runRegOps ops r).devices.map RegDevice.id).Nodup
      ∧ ∀ d ∈ (runRegOps ops r).devices,
          d.hasCapability CAP_INPUT = true ∨ d.hasCapability CAP_OUTPUT = true := by
  induction ops generalizing r with
  | nil => exact ⟨hnodup, hmem⟩
  | cons op rest ih =>
      rw [List.all_cons, Bool.and_eq_true] at hops
      refine ih (applyRegOp r op) (applyRegOp_nodup hnodup) ?_ hops.2
      intro d hd
      rcases applyRegOp_mem hd with hold | ⟨d', hop, hdd⟩
      · exact hmem d hold
      · subst hop
        subst hdd
        simpa [regOpInOut, Bool.or_eq_true] using hops.1

/-- Counting identity for any device list in which each member holds Input
or Output. -/
lemma count_identity (l : List RegDevice)
    (h : ∀ d ∈ l,
      d.hasCapability CAP_INPUT = true ∨ d.hasCapability CAP_OUTPUT = true) :
    l.length
        + (l.filter
            (fun d => d.hasCapability CAP_INPUT && d.hasCapability CAP_OUTPUT)).length
      = (l.filter (fun d => d.hasCapability CAP_INPUT)).length
        + (l.filter (fun d => d.hasCapability CAP_OUTPUT)).length := by
  induction l with
  | nil => simp
  | cons d ds ih =>
      have hds := ih fun e he => h e (List.mem_cons_of_mem d he)
      have hd := h d (List.mem_cons_self d ds)
      by_cases hin : d.hasCapability CAP_INPUT = true
      · by_cases hout : d.hasCapability CAP_OUTPUT = true
        · simp [List.filter_cons, hin, hout]
          all_goals omega
        · simp [List.filter_cons, hin, hout]
          all_goals omega
      · by_cases hout : d.hasCapability CAP_OUTPUT = true
        · simp [List.filter_cons, hin, hout]
          all_goals omega
        · rcases hd with hh | hh
          · exact absurd hh hin
          · exact absurd hh hout

/-- On an index range, find? returns the least index satisfying the
predicate (the first-available-slot scan). -/
lemma find?_range_least {p : Nat → Bool} :
    ∀ {n i : Nat}, (List.range n).find? p = some i →
      p i = true ∧ ∀ j < i, p j = false := by
  intro n
  induction n with
  | zero => intro i h; simp at h
  | succ n ih =>
      intro i h
      rw [List.range_succ, List.find?_append] at h
      cases o : (List.range n).find? p with
      | some j =>
          rw [o] at h
          injection h with h2
          subst h2
          exact ih o
      | none =>
          rw [o] at h
          have h1 : List.find? p [n] = some i := h
          have hall := List.find?_eq_none.mp o
          cases hp : p n with
          | true =>
              rw [List.find?_cons_of_pos _ hp] at h1
              injection h1 with h2
              subst h2
              refine ⟨hp, fun j hj => ?_⟩
              have hj2 := hall j (List.mem_range.mpr hj)
              simpa using hj2
          | false =>
              rw [List.find?_cons_of_neg _ (by simp [hp])] at h1
              exact Option.noConfusion h1

/-- Membership in one dispatch tier. -/
lemma mem_tierOrder {ls : List Listener} {ev : Event} {p : EventPriority}
    {i : Nat} :
    i ∈ tierOrder ls ev p
      ↔ i < MAX_EVENT_LISTENERS ∧ invokedInTier ls ev p i = true := by
  simp [tierOrder, List.mem_filter, List.mem_range]

/-- The tier test is the priority test conjoined with the overall
invocation test. -/
lemma invokedInTier_eq (ls : List Listener) (ev : Event) (p : EventPriority)
    (i : Nat) :
    invokedInTier ls ev p i
      = (((ls.getD i defaultListener).priority == p) && invokedFor ls ev i) := by
  simp only [invokedInTier, invokedFor]
  cases (ls.getD i defaultListener).active <;>
    cases ((ls.getD i defaultListener).priority == p) <;>
    cases eventMatches ev.name (ls.getD i defaultListener).eventName <;>
    cases (ls.getD i defaultListener).callback.isSome <;>
    rfl

/-- A slot is invoked exactly when it is an in-range matching active
subscription with a non-NULL callback. -/
lemma mem_invocationOrder {ls : List Listener} {ev : Event} {i : Nat} :
    i ∈ invocationOrder ls ev
      ↔ i < MAX_EVENT_LISTENERS ∧ invokedFor ls ev i = true := by
  have key : ∀ p, i ∈ tierOrder ls ev p →
      i < MAX_EVENT_LISTENERS ∧ invokedFor ls ev i = true := by
    intro p hp
    rw [mem_tierOrder] at hp
    obtain ⟨h32, ht⟩ := hp
    rw [invokedInTier_eq, Bool.and_eq_true] at ht
    exact ⟨h32, ht.2⟩
  constructor
  · intro hmem
    have h4 : ((i ∈ tierOrder ls ev .critical ∨ i ∈ tierOrder ls ev .high)
        ∨ i ∈ tierOrder ls ev .normal) ∨ i ∈ tierOrder ls ev .low := by
      simpa only [invocationOrder, List.mem_append] using hmem
    rcases h4 with ((h | h) | h) | h
    exacts [key _ h, key _ h, key _ h, key _ h]
  · rintro ⟨h32, h⟩
    have key2 : ∀ p, (ls.getD i defaultListener).priority = p →
        i ∈ tierOrder ls ev p := by
      intro p hp
      rw [mem_tierOrder]
      refine ⟨h32, ?_⟩
      rw [invokedInTier_eq, hp]
      simp [h]
    unfold invocationOrder
    simp only [List.mem_append]
    cases hp : (ls.getD i defaultListener).priority
    · exact Or.inr (key2 .low hp)
    · exact Or.inl (Or.inr (key2 .normal hp))
    · exact Or.inl (Or.inl (Or.inr (key2 .high hp)))
    · exact Or.inl (Or.inl (Or.inl (key2 .critical hp)))

/-- Every member of a tier has that tier as its stored priority. -/
lemma tierOrder_priority {ls : List Listener} {ev : Event}
    {p : EventPriority} {i : Nat} (h : i ∈ tierOrder ls ev p) :
    (ls.getD i defaultListener).priority = p := by
  rw [mem_tierOrder] at h
  have h2 := h.2
  rw [invokedInTier_eq, Bool.and_eq_true] at h2
  exact beq_iff_eq.mp h2.1

/-- The invocation order of triggerListeners is strictly descending in
priority tier and ascending in slot index within a tier. -/
lemma pairwise_invocationOrder (ls : List Listener) (ev : Event) :
    List.Pairwise (fun i j =>
      ((ls.getD i defaultListener).priority.toNat
          > (ls.getD j defaultListener).priority.toNat)
        ∨ ((ls.getD i defaultListener).priority
              = (ls.getD j defaultListener).priority ∧ i < j))
      (invocationOrder ls ev) := by
  have htier : ∀ p, List.Pairwise (fun i j =>
      ((ls.getD i defaultListener).priority.toNat
          > (ls.getD j defaultListener).priority.toNat)
        ∨ ((ls.getD i defaultListener).priority
              = (ls.getD j defaultListener).priority ∧ i < j))
      (tierOrder ls ev p) := by
    intro p
    refine List.Pairwise.imp_of_mem ?_
      ((List.pairwise_lt_range MAX_EVENT_LISTENERS).filter _)
    intro a c ha hc hlt
    exact Or.inr ⟨by rw [tierOrder_priority ha, tierOrder_priority hc], hlt⟩
  have hcross : ∀ p q : EventPriority, p.toNat > q.toNat →
      ∀ a ∈ tierOrder ls ev p, ∀ c ∈ tierOrder ls ev q,
        ((ls.getD a defaultListener).priority.toNat
            > (ls.getD c defaultListener).priority.toNat)
          ∨ ((ls.getD a defaultListener).priority
                = (ls.getD c defaultListener).priority ∧ a < c) := by
    intro p q hpq a ha c hc
    exact Or.inl (by rw [tierOrder_priority ha, tierOrder_priority hc]; exact hpq)
  unfold invocationOrder
  refine List.pairwise_append.mpr ⟨List.pairwise_append.mpr
    ⟨List.pairwise_append.mpr
      ⟨htier .critical, htier .high, hcross .critical .high (by decide)⟩,
     htier .normal, ?_⟩, htier .low, ?_⟩
  · intro a ha c hc
    rcases List.mem_append.mp ha with h | h
    · exact hcross .critical .normal (by decide) a h c hc
    · exact hcross .high .normal (by decide) a h c hc
  · intro a ha c hc
    rcases List.mem_append.mp ha with h | h
    · rcases List.mem_append.mp h with h2 | h2
      · exact hcross .critical .low (by decide) a h2 c hc
      · exact hcross .high .low (by decide) a h2 c hc
    · exact hcross .normal .low (by decide) a h c hc

/-- The FIFO view of a nonempty queue: the head event followed by the FIFO
view after one dequeue step. -/
lemma fifoEvents_cons (b : EventBus) (n : Nat) (hsz : b.queueSize = n + 1)
    (hhead : b.queueHead < MAX_EVENT_QUEUE) :
    fifoEvents b
      = b.queue.getD b.queueHead defaultEvent
          :: fifoEvents { b with
                queueHead := (b.queueHead + 1) % MAX_EVENT_QUEUE,
                queueSize := b.queueSize - 1,
                totalEventCount := b.totalEventCount + 1 } := by
  unfold fifoEvents
  rw [hsz]
  dsimp only
  rw [List.range_succ_eq_map, List.map_cons, List.map_map]
  congr 1
  · rw [Nat.add_zero, Nat.mod_eq_of_lt hhead]
  · rw [Nat.add_sub_cancel]
    apply List.map_eq_map_iff.mpr
    intro k _
    simp only [Function.comp_apply]
    congr 1
    rw [Nat.mod_add_mod]
    congr 1
    omega

/-- The trace of the processEvents drain loop: each queued event, in FIFO
order, fans out through triggerListeners against the unchanged listener
table. -/
lemma processEventsGo_trace :
    ∀ (n : Nat) (b : EventBus), b.queueSize = n →
      b.queueHead < MAX_EVENT_QUEUE →
      (processEventsGo n b).2
        = ((fifoEvents b).map (fun e => triggerListeners b.listeners e)).flatten := by
  intro n
  induction n with
  | zero =>
      intro b hsz _
      unfold processEventsGo fifoEvents
      rw [hsz]
      rfl
  | succ n ih =>
      intro b hsz hhead
      unfold processEventsGo
      rw [if_neg (by omega)]
      dsimp only
      rw [ih _ (by dsimp only; omega) (Nat.mod_lt _ (by decide))]
      rw [fifoEvents_cons b n hsz hhead]
      rfl

/-- A subscribe immediately followed by an unsubscribe of the returned id,
the churn that advances the id counter without occupying the table. -/
def pairStep (b : EventBus) : EventBus :=
  let r := b.subscribe (some "servo.moved") (some 1) .normal
  r.2.unsubscribe r.1

/-- A freshly constructed bus whose id counter has advanced to n. -/
def busWithNext (n : Nat) : EventBus :=
  { initialEventBus with nextListenerId := n }

/-- Subscribing on an otherwise fresh bus fills slot 0 and returns the
current id counter. -/
lemma subscribe_busWithNext (n : Nat) :
    (busWithNext n).subscribe (some "servo.moved") (some 1) .normal
      = (n, { busWithNext n with
                listeners := { id := n, eventName := some "servo.moved",
                               callback := some 1, priority := .normal,
                               active := true } :: List.replicate 31 defaultListener,
                listenerCount := 1,
                nextListenerId := (n + 1) % 65536 }) := rfl

/-- Unsubscribing the id just issued restores the fresh bus, with the id
counter advanced. -/
lemma unsubscribe_after (n : Nat) :
    ({ busWithNext n with
        listeners := { id := n, eventName := some "servo.moved",
                       callback := some 1, priority := .normal,
                       active := true } :: List.replicate 31 defaultListener,
        listenerCount := 1,
        nextListenerId := (n + 1) % 65536 } : EventBus).unsubscribe n
      = busWithNext ((n + 1) % 65536) := by
  unfold EventBus.unsubscribe
  rw [show List.range MAX_EVENT_LISTENERS = 0 :: List.map Nat.succ (List.range 31)
    from List.range_succ_eq_map 31]
  rw [List.find?_cons_of_pos _ (by simp)]
  rfl

/-- One churn step advances the id counter by one, modulo 2^16. -/
lemma pairStep_busWithNext (n : Nat) :
    pairStep (busWithNext n) = busWithNext ((n + 1) % 65536) := by
  unfold pairStep
  rw [subscribe_busWithNext]
  exact unsubscribe_after n

/-- k churn steps from the fresh bus advance the id counter to
(1 + k) mod 2^16. -/
lemma pairStep_iterate (k : Nat) :
    pairStep^[k] initialEventBus = busWithNext ((1 + k) % 65536) := by
  induction k with
  | zero =>
      show initialEventBus = busWithNext (1 % 65536)
      rfl
  | succ k ih =>
      rw [Function.iterate_succ_apply', ih, pairStep_busWithNext]
      congr 1
      omega

/-- When the timer has not wrapped, the unsigned elapsed-time computation
of Servo::update is the plain difference. -/
lemma elapsedTime_eq (s : ServoState) (now : Nat)
    (h1 : s.animationStart + s.pausedDuration ≤ now)
    (h2 : now - s.animationStart - s.pausedDuration < 2 ^ 32) :
    elapsedTime s now = now - s.animationStart - s.pausedDuration := by
  unfold elapsedTime
  omega

/-! ## Claim theorems -/

/-- C8: for every t (the source clamps the input to [0,1]) and each of the
six easing types, applyEasing returns a value in [0,1], applyEasing 0 = 0
and applyEasing 1 = 1; applyEasing is a pure function of its arguments by
construction. -/
theorem applyEasing_bounds_and_endpoints :
    ∀ (t : ℚ) (ty : EasingType),
      0 ≤ applyEasing t ty ∧ applyEasing t ty ≤ 1
        ∧ applyEasing 0 ty = 0 ∧ applyEasing 1 ty = 1 := by
  intro t ty
  have h0 := clamp01_nonneg t
  have h1 := clamp01_le_one t
  cases ty <;>
    simp only [applyEasing, clamp01_zero, clamp01_one] <;>
    refine ⟨?_, ?_, by norm_num, by norm_num⟩
  case easeLinear.refine_1 => exact h0
  case easeLinear.refine_2 => exact h1
  case easeInQuad.refine_1 => positivity
  case easeInQuad.refine_2 => nlinarith
  case easeOutQuad.refine_1 => nlinarith
  case easeOutQuad.refine_2 => nlinarith [sq_nonneg (clamp01 t - 1)]
  case easeInOutQuad.refine_1 =>
    split_ifs with h
    · positivity
    · nlinarith [mul_nonneg (by linarith : (0:ℚ) ≤ clamp01 t - 1/2)
        (by linarith : (0:ℚ) ≤ 1 - clamp01 t)]
  case easeInOutQuad.refine_2 =>
    split_ifs with h
    · nlinarith
    · nlinarith [sq_nonneg (clamp01 t - 1)]
  case easeInCubic.refine_1 => positivity
  case easeInCubic.refine_2 => nlinarith
  case easeOutCubic.refine_1 =>
    nlinarith [mul_nonneg (by linarith : (0:ℚ) ≤ clamp01 t)
      (sq_nonneg (clamp01 t - 1))]
  case easeOutCubic.refine_2 =>
    nlinarith [mul_nonneg (by linarith : (0:ℚ) ≤ 1 - clamp01 t)
      (sq_nonneg (clamp01 t - 1))]

/-- C4: with a positive angle span and positive raw span, mapAngleToPWM is
monotone in the angle over the calibrated range in both calibration modes;
in step mode the two angle endpoints map exactly to the calibrated raw
endpoints (no rounding off-by-one) and setValue at the endpoints writes
exactly those raw values; in microseconds mode the endpoints map exactly to
the tick images of the two calibrated pulse widths. -/
theorem mapAngleToPWM_monotone_exact (s : ServoState) (a b : Nat)
    (p q mina maxa x y : ℚ)
    (hab : a < b) (hb : b ≤ 65535) (hangle : mina < maxa) (hpq : p < q)
    (hm : 0 < s.maxPWM) (hx : mina ≤ x) (hxy : x ≤ y) (hy : y ≤ maxa) :
    ((s.calibrateBySteps a b mina maxa).mapAngleToPWM x
        ≤ (s.calibrateBySteps a b mina maxa).mapAngleToPWM y)
      ∧ (s.calibrateBySteps a b mina maxa).mapAngleToPWM mina = a
      ∧ (s.calibrateBySteps a b mina maxa).mapAngleToPWM maxa = b
      ∧ ((s.calibrateBySteps a b mina maxa).setValue mina).writes = [(s.channel, a)]
      ∧ ((s.calibrateBySteps a b mina maxa).setValue maxa).writes = [(s.channel, b)]
      ∧ ((s.calibrate p q mina maxa).mapAngleToPWM x
          ≤ (s.calibrate p q mina maxa).mapAngleToPWM y)
      ∧ (s.calibrate p q mina maxa).mapAngleToPWM mina
          = castU16 (p / (20000 / (s.maxPWM : ℚ)))
      ∧ (s.calibrate p q mina maxa).mapAngleToPWM maxa
          = castU16 (q / (20000 / (s.maxPWM : ℚ))) := by
  have hspan : (0:ℚ) < maxa - mina := by linarith
  have hcast : ((b:ℚ) - (a:ℚ)) = ((b - a : Nat) : ℚ) := by
    rw [Nat.cast_sub (le_of_lt hab)]
  have hstep : ∀ z : ℚ, (s.calibrateBySteps a b mina maxa).mapAngleToPWM z
      = (a + castU16 ((z - mina) / (maxa - mina) * ((b:ℚ) - (a:ℚ)))) % 65536 := by
    intro z
    simp only [ServoState.mapAngleToPWM, ServoState.calibrateBySteps, if_pos]
  have hba : (0:ℚ) ≤ (b:ℚ) - (a:ℚ) := by
    have hc : (a:ℚ) ≤ (b:ℚ) := by exact_mod_cast le_of_lt hab
    linarith
  -- the truncated step offset never exceeds b - a for angles within range
  have hofs : ∀ z : ℚ, z ≤ maxa →
      castU16 ((z - mina) / (maxa - mina) * ((b:ℚ) - (a:ℚ))) ≤ b - a := by
    intro z hz
    apply castU16_le_of_le
    rw [← hcast]
    have hnorm : (z - mina) / (maxa - mina) ≤ 1 := by
      rw [div_le_one hspan]
      linarith
    nlinarith [hnorm, hba]
  have hmod : ∀ z : ℚ, z ≤ maxa →
      (a + castU16 ((z - mina) / (maxa - mina) * ((b:ℚ) - (a:ℚ)))) % 65536
        = a + castU16 ((z - mina) / (maxa - mina) * ((b:ℚ) - (a:ℚ))) := by
    intro z hz
    have := hofs z hz
    apply Nat.mod_eq_of_lt
    omega
  have hstepx : ∀ z : ℚ, z ≤ maxa → (s.calibrateBySteps a b mina maxa).mapAngleToPWM z
      = a + castU16 ((z - mina) / (maxa - mina) * ((b:ℚ) - (a:ℚ))) := by
    intro z hz
    rw [hstep z, hmod z hz]
  have hstepmono : (s.calibrateBySteps a b mina maxa).mapAngleToPWM x
      ≤ (s.calibrateBySteps a b mina maxa).mapAngleToPWM y := by
    rw [hstepx x (le_trans hxy hy), hstepx y hy]
    have : (x - mina) / (maxa - mina) ≤ (y - mina) / (maxa - mina) := by
      apply div_le_div_of_nonneg_right _ (le_of_lt hspan)
      linarith
    exact Nat.add_le_add_left (castU16_mono (mul_le_mul_of_nonneg_right this hba)) a
  have hstepmin : (s.calibrateBySteps a b mina maxa).mapAngleToPWM mina = a := by
    rw [hstepx mina (le_of_lt hangle)]
    have : (mina - mina) / (maxa - mina) * ((b:ℚ) - (a:ℚ)) = 0 := by
      rw [sub_self, zero_div, zero_mul]
    rw [this]
    have h0 : castU16 0 = 0 := by simp [castU16]
    rw [h0]
    omega
  have hstepmax : (s.calibrateBySteps a b mina maxa).mapAngleToPWM maxa = b := by
    rw [hstepx maxa le_rfl]
    have : (maxa - mina) / (maxa - mina) * ((b:ℚ) - (a:ℚ)) = ((b - a : Nat) : ℚ) := by
      rw [div_self (ne_of_gt hspan), one_mul, hcast]
    rw [this, castU16_natCast]
    omega
  -- microseconds mode
  have hdiv : (0:ℚ) < 20000 / (s.maxPWM : ℚ) := by
    apply div_pos (by norm_num)
    exact_mod_cast hm
  have hpulse : ∀ z : ℚ, (s.calibrate p q mina maxa).mapAngleToPWM z
      = castU16 ((p + (z - mina) / (maxa - mina) * (q - p)) / (20000 / (s.maxPWM : ℚ))) := by
    intro z
    simp only [ServoState.mapAngleToPWM, ServoState.calibrate, if_neg, Bool.false_eq_true,
      if_false]
  have hpulsemono : (s.calibrate p q mina maxa).mapAngleToPWM x
      ≤ (s.calibrate p q mina maxa).mapAngleToPWM y := by
    rw [hpulse x, hpulse y]
    apply castU16_mono
    apply div_le_div_of_nonneg_right _ (le_of_lt hdiv)
    have : (x - mina) / (maxa - mina) ≤ (y - mina) / (maxa - mina) := by
      apply div_le_div_of_nonneg_right _ (le_of_lt hspan)
      linarith
    nlinarith [this]
  have hpulsemin : (s.calibrate p q mina maxa).mapAngleToPWM mina
      = castU16 (p / (20000 / (s.maxPWM : ℚ))) := by
    rw [hpulse mina]
    congr 1
    rw [sub_self, zero_div, zero_mul, add_zero]
  have hpulsemax : (s.calibrate p q mina maxa).mapAngleToPWM maxa
      = castU16 (q / (20000 / (s.maxPWM : ℚ))) := by
    rw [hpulse maxa]
    congr 1
    rw [div_self (ne_of_gt hspan), one_mul]
    ring_nf
  have hclampmin : (s.calibrateBySteps a b mina maxa).clampAngle mina = mina :=
    ServoState.clampAngle_eq_self _ mina le_rfl (le_of_lt hangle)
  have hclampmax : (s.calibrateBySteps a b mina maxa).clampAngle maxa = maxa :=
    ServoState.clampAngle_eq_self _ maxa (le_of_lt hangle) le_rfl
  refine ⟨hstepmono, hstepmin, hstepmax, ?_, ?_, hpulsemono, hpulsemin, hpulsemax⟩
  · show [((s.calibrateBySteps a b mina maxa).channel,
      (s.calibrateBySteps a b mina maxa).mapAngleToPWM
        ((s.calibrateBySteps a b mina maxa).clampAngle mina))] = [(s.channel, a)]
    rw [hclampmin, hstepmin]
    rfl
  · show [((s.calibrateBySteps a b mina maxa).channel,
      (s.calibrateBySteps a b mina maxa).mapAngleToPWM
        ((s.calibrateBySteps a b mina maxa).clampAngle maxa))] = [(s.channel, b)]
    rw [hclampmax, hstepmax]
    rfl

/-- C1: the Servo raw-write paths publish no event at all.  Every call to
setValue issues exactly one raw PWM write and publishes nothing, and every
write path (setValue, setAngle, setNormalized, the immediate write of
moveTo and both animation-stepper writes inside update) returns an empty
published list — contradicting the documented servo.moved side effect. -/
theorem servo_raw_write_publishes_no_event :
    (∀ (s : ServoState) (angle : ℚ),
        (s.setValue angle).writes = [(s.channel, s.mapAngleToPWM (s.clampAngle angle))]
          ∧ (s.setValue angle).published = [] ∧ (s.setAngle angle).published = []
          ∧ (s.setNormalized angle).published = [])
      ∧ (∀ (s : ServoState) (now : Nat), (s.update now).published = [])
      ∧ (∀ (s : ServoState) (target : ℚ) (duration now : Nat),
          (s.moveTo target duration now).published = []) := by
  refine ⟨fun s angle => ⟨rfl, rfl, rfl, rfl⟩, fun s now => ?_, fun s target duration now => ?_⟩
  · simp only [ServoState.update]
    split
    · rfl
    · split
      · rfl
      · split
        · split <;> rfl
        · rfl
  · simp only [ServoState.moveTo]
    split <;> rfl

/-- C10: moveTo with duration 0 writes immediately and leaves the device
idle: isMoving() is false, getValue() is the target clamped to the
calibrated range, the raw write is issued at once, and a subsequent
update() is a complete no-op. -/
theorem moveTo_zero_duration_immediate (s : ServoState) (target : ℚ) (now now2 : Nat) :
    (s.moveTo target 0 now).servo.isMoving = false
      ∧ (s.moveTo target 0 now).servo.getValue = s.clampAngle target
      ∧ (s.moveTo target 0 now).writes
          = [(s.channel, s.mapAngleToPWM (s.clampAngle target))]
      ∧ (s.moveTo target 0 now).servo.update now2
          = { servo := (s.moveTo target 0 now).servo, writes := [], published := [] } := by
  refine ⟨rfl, rfl, rfl, ?_⟩
  have h0 : (s.moveTo target 0 now).servo.animationDuration = 0 := rfl
  simp only [ServoState.update]
  split_ifs <;> first | rfl | omega

/-- The branch Servo::update takes when the animation has completed: snap
to the target (via setValue) and clear the duration. -/
lemma ServoState.update_eq_snap (s : ServoState) (now : Nat)
    (hen : s.enabled = true) (hst : s.state = .ready) (hp : s.isPaused = false)
    (hmov : 0 < s.animationDuration)
    (hel : s.animationDuration ≤ elapsedTime s now) :
    s.update now
      = { servo := { (s.setValue s.targetAngle).servo with animationDuration := 0 },
          writes := (s.setValue s.targetAngle).writes,
          published := (s.setValue s.targetAngle).published } := by
  simp only [ServoState.update]
  split_ifs with hA hB hC hD
  all_goals first
    | rfl
    | (exfalso; simp_all)
    | omega

/-- C7: when an enabled, Ready, unpaused servo with an active animation is
updated at a time where the elapsed animation time has reached the
duration, it transitions to Idle (isMoving() becomes false) and the value
snaps exactly to the target for any target within the calibrated range. -/
theorem update_completion_snaps_to_target (s : ServoState) (now : Nat)
    (hen : s.enabled = true) (hst : s.state = .ready) (hp : s.isPaused = false)
    (hmov : 0 < s.animationDuration)
    (hel : s.animationDuration ≤ elapsedTime s now)
    (h1 : s.minAngle ≤ s.targetAngle) (h2 : s.targetAngle ≤ s.maxAngle) :
    (s.update now).servo.isMoving = false
      ∧ (s.update now).servo.getValue = s.targetAngle := by
  rw [ServoState.update_eq_snap s now hen hst hp hmov hel]
  refine ⟨rfl, ?_⟩
  show s.clampAngle s.targetAngle = s.targetAngle
  exact ServoState.clampAngle_eq_self s s.targetAngle h1 h2

/-- A concrete servo (channel 0, id 100, a 4096-tick driver) used to
instantiate the calibration claims. -/
def c4Servo : ServoState := { channel := 0, deviceId := 100, maxPWM := 4096 }

/-- Witness for C4: calibrateBySteps(150, 600) over angles 0..180 maps the
endpoints exactly to 150 and 600, monotonically in between, and setValue at
the endpoints writes exactly those raw values. -/
theorem mapAngleToPWM_monotone_exact_witness :
    ((c4Servo.calibrateBySteps 150 600 0 180).mapAngleToPWM 45
        ≤ (c4Servo.calibrateBySteps 150 600 0 180).mapAngleToPWM 90)
      ∧ (c4Servo.calibrateBySteps 150 600 0 180).mapAngleToPWM 0 = 150
      ∧ (c4Servo.calibrateBySteps 150 600 0 180).mapAngleToPWM 180 = 600
      ∧ ((c4Servo.calibrateBySteps 150 600 0 180).setValue 0).writes = [(0, 150)]
      ∧ ((c4Servo.calibrateBySteps 150 600 0 180).setValue 180).writes = [(0, 600)] := by
  have h := mapAngleToPWM_monotone_exact c4Servo 150 600 500 2500 0 180 45 90
    (by norm_num) (by norm_num) (by norm_num) (by norm_num)
    (by norm_num [c4Servo]) (by norm_num) (by norm_num) (by norm_num)
  exact ⟨h.1, h.2.1, h.2.2.1, h.2.2.2.1, h.2.2.2.2.1⟩

/-- A concrete servo mid-animation: moving from 0 to 180 degrees over
3000 ms, animation started at millis() = 0. -/
def c7Servo : ServoState :=
  { channel := 0, deviceId := 100, maxPWM := 4096, state := .ready,
    enabled := true, animationDuration := 3000, animationStart := 0,
    targetAngle := 180, startAngle := 0 }

/-- Witness for C7: updating the concrete animating servo at millis() =
3000 (elapsed = duration = 3000) leaves it Idle with the value exactly
180. -/
theorem update_completion_snaps_witness :
    (c7Servo.update 3000).servo.isMoving = false
      ∧ (c7Servo.update 3000).servo.getValue = 180 := by
  have he : elapsedTime c7Servo 3000 = 3000 := by
    rw [elapsedTime_eq c7Servo 3000 (by norm_num [c7Servo]) (by norm_num [c7Servo])]
    rfl
  have h := update_completion_snaps_to_target c7Servo 3000 rfl rfl rfl
    (by norm_num [c7Servo]) (by rw [he]; norm_num [c7Servo])
    (by norm_num [c7Servo]) (by norm_num [c7Servo])
  exact ⟨h.1, h.2⟩

/-- C2: a publishAsync call that finds the ring buffer full drops the
event — every state component except the log is unchanged, and the drop is
recorded as a warning log entry — and consequently capacity + 1
publishAsync calls with no intervening processEvents leave exactly
capacity pending events. -/
theorem publishAsync_full_drops_and_caps (b : EventBus) (ev : Event)
    (now : Nat) (calls : List (Event × Nat)) :
    (ev.name ≠ none → b.queueSize ≥ MAX_EVENT_QUEUE →
       b.publishAsync ev now
         = { b with log := "Event queue full, dropping event" :: b.log })
      ∧ (b.queueSize = 0 → calls.length = MAX_EVENT_QUEUE + 1 →
         (∀ c ∈ calls, c.1.name ≠ none) →
         (calls.foldl (fun st c => st.publishAsync c.1 c.2) b).getPendingEventCount
           = MAX_EVENT_QUEUE) := by
  constructor
  · intro hname hfull
    unfold EventBus.publishAsync
    rw [if_neg hname, if_pos hfull]
  · intro h0 hlen hnames
    have hsize := publishAsync_foldl_size calls b hnames (by omega)
    rw [EventBus.getPendingEventCount, hsize, h0, hlen]
    norm_num [MAX_EVENT_QUEUE]

/-- C3: for every synchronous dispatch (publish, and each dequeued event
during processEvents) the invoked slots are exactly the matching active
subscriptions; the invocation order is pairwise priority-tier-descending
(Critical before High before Normal before Low) with ascending slot order
inside a tier; and processEvents fans each queued event out in FIFO order
with that same per-event order. -/
theorem dispatch_priority_order (b : EventBus) (ev : Event) :
    (∀ i, i ∈ invocationOrder b.listeners ev
        ↔ (i < MAX_EVENT_LISTENERS ∧ invokedFor b.listeners ev i = true))
      ∧ List.Pairwise (fun i j =>
          ((b.listeners.getD i defaultListener).priority.toNat
              > (b.listeners.getD j defaultListener).priority.toNat)
            ∨ ((b.listeners.getD i defaultListener).priority
                  = (b.listeners.getD j defaultListener).priority ∧ i < j))
          (invocationOrder b.listeners ev)
      ∧ (ev.name ≠ none → (b.publish ev).2 = triggerListeners b.listeners ev)
      ∧ (b.queueHead < MAX_EVENT_QUEUE →
          (b.processEvents).2
            = ((fifoEvents b).map
                (fun e => triggerListeners b.listeners e)).flatten) := by
  refine ⟨fun i => mem_invocationOrder, pairwise_invocationOrder b.listeners ev,
    ?_, ?_⟩
  · intro h
    unfold EventBus.publish
    rw [if_neg h]
  · intro hh
    exact processEventsGo_trace b.queueSize b rfl hh

/-- The event of the dispatch scenario: servo.moved from device 100. -/
def c3Event : Event :=
  { name := some "servo.moved", sourceDeviceId := 100, data := none,
    priority := .normal, timestamp := 0 }

/-- A bus with a High and a Normal subscription on servo.moved and one
queued servo.moved event, built through the public API. -/
def c3Bus : EventBus :=
  (((initialEventBus.subscribe (some "servo.moved") (some 10) .high).2.subscribe
      (some "servo.moved") (some 20) .normal).2.publishAsync c3Event 1)

/-- Witness for C3 at the concrete two-subscriber bus. -/
theorem dispatch_priority_order_witness :
    ((c3Bus.publish c3Event).2 = triggerListeners c3Bus.listeners c3Event)
      ∧ ((c3Bus.processEvents).2
          = ((fifoEvents c3Bus).map
              (fun e => triggerListeners c3Bus.listeners e)).flatten) :=
  ⟨(dispatch_priority_order c3Bus c3Event).2.2.1 (by decide),
   (dispatch_priority_order c3Bus c3Event).2.2.2 (by decide)⟩

/-- C5 counterexample: subscribe does not return the sentinel 0 for an
empty (non-NULL) event name — the source checks only for NULL — and after
65535 subscribe/unsubscribe churn steps the 16-bit id counter wraps to 0,
so the 65536th successful subscribe stores and returns id 0 even though
the table is not full and both arguments are non-NULL. -/
theorem subscribe_sentinel_counterexample :
    ((initialEventBus.subscribe (some "") (some 1) .normal).1 = 1
        ∧ initialEventBus.listenerCount = 0)
      ∧ ((pairStep^[65535] initialEventBus).subscribe
            (some "servo.moved") (some 1) .normal).1 = 0
        ∧ (pairStep^[65535] initialEventBus).listenerCount = 0
        ∧ (pairStep^[65535] initialEventBus).listeners.length
            = MAX_EVENT_LISTENERS := by
  refine ⟨⟨rfl, rfl⟩, ?_, ?_, ?_⟩
  · rw [pairStep_iterate]
    rfl
  · rw [pairStep_iterate]
    rfl
  · rw [pairStep_iterate]
    rfl

/-- C5 (amended): under the structural invariants of the listener table
(32 slots, count = number of active slots) and provided the 16-bit id
counter has not wrapped to 0, subscribe returns the sentinel 0 exactly when
the table already holds the maximum number of active subscriptions or
eventName is NULL or the callback is NULL (an empty but non-NULL name is
accepted); in every other case it returns the nonzero current id and fills
the first available slot. -/
theorem subscribe_sentinel_iff_amended (b : EventBus) (name : Option String)
    (cb : Option Nat) (prio : EventPriority)
    (hlen : b.listeners.length = MAX_EVENT_LISTENERS)
    (hcount : b.listenerCount = (b.listeners.filter (fun l => l.active)).length)
    (hid : b.nextListenerId ≠ 0) :
    ((b.subscribe name cb prio).1 = 0
        ↔ (name = none ∨ cb = none ∨ b.listenerCount ≥ MAX_EVENT_LISTENERS))
      ∧ (∀ i, ¬(name = none ∨ cb = none) →
          b.listenerCount < MAX_EVENT_LISTENERS →
          (List.range MAX_EVENT_LISTENERS).find?
              (fun j => !(b.listeners.getD j defaultListener).active) = some i →
          ((b.listeners.getD i defaultListener).active = false
            ∧ (∀ j < i, (b.listeners.getD j defaultListener).active = true)
            ∧ (b.subscribe name cb prio).1 = b.nextListenerId
            ∧ (b.subscribe name cb prio).2.listeners = b.listeners.set i
                { id := b.nextListenerId, eventName := name, callback := cb,
                  priority := prio, active := true })) := by
  have hfind : ¬(name = none ∨ cb = none) → b.listenerCount < MAX_EVENT_LISTENERS →
      (List.range MAX_EVENT_LISTENERS).find?
        (fun j => !(b.listeners.getD j defaultListener).active) ≠ none := by
    intro _ hlt hnone
    have hall := List.find?_eq_none.mp hnone
    have hact : ∀ l ∈ b.listeners, l.active = true := by
      intro l hl
      rcases List.mem_iff_getElem.mp hl with ⟨j, hj, hget⟩
      have hj32 : j < MAX_EVENT_LISTENERS := by omega
      have := hall j (List.mem_range.mpr hj32)
      rw [List.getD_eq_getElem?_getD, List.getElem?_eq_getElem hj,
        Option.getD_some] at this
      rw [← hget]
      simpa using this
    have : b.listeners.filter (fun l => l.active) = b.listeners :=
      List.filter_eq_self.mpr hact
    rw [this, hlen] at hcount
    omega
  constructor
  · constructor
    · intro h0
      by_contra hn
      push_neg at hn
      obtain ⟨hn1, hn2, hlt⟩ := hn
      have hnc : ¬(name = none ∨ cb = none) := by
        intro hor
        rcases hor with h | h
        · exact hn1 h
        · exact hn2 h
      cases o : (List.range MAX_EVENT_LISTENERS).find?
          (fun j => !(b.listeners.getD j defaultListener).active) with
      | none => exact hfind hnc hlt o
      | some i =>
          unfold EventBus.subscribe at h0
          rw [if_neg hnc, if_neg (not_le.mpr hlt), o] at h0
          exact hid h0
    · intro h
      by_cases hnc : name = none ∨ cb = none
      · unfold EventBus.subscribe
        rw [if_pos hnc]
      · have h32 : b.listenerCount ≥ MAX_EVENT_LISTENERS := by
          rcases h with h | h | h
          · exact absurd (Or.inl h) hnc
          · exact absurd (Or.inr h) hnc
          · exact h
        unfold EventBus.subscribe
        rw [if_neg hnc, if_pos h32]
  · intro i hnc hlt hfound
    obtain ⟨hp, hleast⟩ := find?_range_least hfound
    refine ⟨by simpa using hp, fun j hj => ?_, ?_, ?_⟩
    · have := hleast j hj
      simpa using this
    · unfold EventBus.subscribe
      rw [if_neg hnc, if_neg (not_le.mpr hlt), hfound]
    · unfold EventBus.subscribe
      rw [if_neg hnc, if_neg (not_le.mpr hlt), hfound]

/-- Witness for the amended C5: on the fresh bus a subscribe with non-NULL
arguments does not return the sentinel. -/
theorem subscribe_sentinel_iff_amended_witness :
    ((initialEventBus.subscribe (some "servo.moved") (some 1) .normal).1 = 0
        ↔ (some "servo.moved" = (none : Option String)
            ∨ some 1 = (none : Option Nat)
            ∨ initialEventBus.listenerCount ≥ MAX_EVENT_LISTENERS)) :=
  (subscribe_sentinel_iff_amended initialEventBus (some "servo.moved")
    (some 1) .normal rfl rfl (by decide)).1

/-- C6: over every register/unregister call sequence starting from the
empty registry in which each registered device holds the Input or Output
capability (as every device type of this repository does), no device id is
ever stored twice, and the device count equals the Input count plus the
Output count minus the count of devices holding both capabilities. -/
theorem registry_nodup_and_capability_counts (ops : List RegOp)
    (hops : ops.all regOpInOut = true) :
    ((runRegOps ops emptyRegistry).devices.map RegDevice.id).Nodup
      ∧ (runRegOps ops emptyRegistry).getDeviceCount
          = (runRegOps ops emptyRegistry).getInputDeviceCount
            + (runRegOps ops emptyRegistry).getOutputDeviceCount
            - (runRegOps ops emptyRegistry).bothCount := by
  obtain ⟨hnodup, hmem⟩ := runRegOps_inv ops emptyRegistry
    (by simp [emptyRegistry]) (by simp [emptyRegistry]) hops
  refine ⟨hnodup, ?_⟩
  have hid := count_identity (runRegOps ops emptyRegistry).devices hmem
  unfold DeviceRegistry.getDeviceCount DeviceRegistry.getInputDeviceCount
    DeviceRegistry.getOutputDeviceCount DeviceRegistry.bothCount
  omega

/-- A concrete call sequence: two successful registrations, one rejected
duplicate id, one unregistration. -/
def c6Ops : List RegOp :=
  [RegOp.register { id := 1, caps := 3, enabled := true },
   RegOp.register { id := 2, caps := 1, enabled := true },
   RegOp.register { id := 1, caps := 2, enabled := true },
   RegOp.unregister 2]

/-- Witness for C6 at the concrete call sequence. -/
theorem registry_nodup_and_capability_counts_witness :
    ((runRegOps c6Ops emptyRegistry).devices.map RegDevice.id).Nodup
      ∧ (runRegOps c6Ops emptyRegistry).getDeviceCount
          = (runRegOps c6Ops emptyRegistry).getInputDeviceCount
            + (runRegOps c6Ops emptyRegistry).getOutputDeviceCount
            - (runRegOps c6Ops emptyRegistry).bothCount :=
  registry_nodup_and_capability_counts c6Ops (by decide)

/-- C9: unregisterDevice removes exactly the first entry with the given id
(no-op when absent), the survivors keep their relative registration order,
and after any burst of unregister calls the forEach and updateAll visit
traces are sub-sequences of the original traces (original registration
order preserved). -/
theorem unregisterDevice_preserves_order (r : DeviceRegistry)
    (deviceId : Nat) (removals : List Nat) :
    ((∀ d ∈ r.devices, d.id ≠ deviceId) →
        r.unregisterDevice deviceId = (false, r))
      ∧ (∀ pre d post, r.devices = pre ++ d :: post → d.id = deviceId →
          (∀ e ∈ pre, e.id ≠ deviceId) →
          (r.unregisterDevice deviceId).1 = true
            ∧ (r.unregisterDevice deviceId).2.devices = pre ++ post)
      ∧ List.Sublist (r.unregisterDevice deviceId).2.devices r.devices
      ∧ List.Sublist
          (removals.foldl (fun st i => (st.unregisterDevice i).2) r).forEachTrace
          r.forEachTrace
      ∧ List.Sublist
          (removals.foldl (fun st i => (st.unregisterDevice i).2) r).updateAllTrace
          r.updateAllTrace := by
  refine ⟨?_, ?_, unregisterDevice_devices_sublist r deviceId, ?_, ?_⟩
  · intro h
    unfold DeviceRegistry.unregisterDevice
    rw [removeFirstDevice_eq_none h]
  · intro pre d post hsplit hd hpre
    unfold DeviceRegistry.unregisterDevice
    rw [hsplit, removeFirstDevice_append pre d post hd hpre]
    exact ⟨rfl, rfl⟩
  · exact (foldUnreg_sublist removals r).map _
  · exact ((foldUnreg_sublist removals r).filter _).map _

/-- A concrete three-device registry. -/
def c9Reg : DeviceRegistry :=
  { devices := [{ id := 1, caps := 1, enabled := true },
                { id := 2, caps := 2, enabled := true },
                { id := 3, caps := 3, enabled := false }] }

/-- Witness for C9: removing device 2 from the concrete registry keeps
devices 1 and 3 in order, and the forEach trace after the removal is a
sub-sequence of the original trace. -/
theorem unregisterDevice_preserves_order_witness :
    ((c9Reg.unregisterDevice 2).1 = true
      ∧ (c9Reg.unregisterDevice 2).2.devices
          = [{ id := 1, caps := 1, enabled := true }]
            ++ [{ id := 3, caps := 3, enabled := false }])
      ∧ List.Sublist
          (([2] : List Nat).foldl (fun st i => (st.unregisterDevice i).2) c9Reg).forEachTrace
          c9Reg.forEachTrace := by
  constructor
  · exact (unregisterDevice_preserves_order c9Reg 2 [2]).2.1
      [{ id := 1, caps := 1, enabled := true }]
      { id := 2, caps := 2, enabled := true }
      [{ id := 3, caps := 3, enabled := false }] rfl rfl (by decide)
  · exact (unregisterDevice_preserves_order c9Reg 2 [2]).2.2.2.1

/-- The concrete event used to exercise the queue-capacity scenario. -/
def c2Event : Event :=
  { name := some "distance.changed", sourceDeviceId := 7, data := none,
    priority := .normal, timestamp := 0 }

/-- A bus whose ring buffer is already at capacity. -/
def c2FullBus : EventBus := { initialEventBus with queueSize := MAX_EVENT_QUEUE }

/-- Witness for C2: a freshly constructed bus receiving 17 publishAsync
calls holds exactly 16 pending events, and a full bus receiving one more
publishAsync changes nothing but the warning log. -/
theorem publishAsync_full_drops_and_caps_witness :
    (c2FullBus.publishAsync c2Event 5
        = { c2FullBus with log := ["Event queue full, dropping event"] })
      ∧ ((List.replicate 17 (c2Event, 0)).foldl
            (fun st c => st.publishAsync c.1 c.2) initialEventBus).getPendingEventCount
          = 16 := by
  constructor
  · exact (publishAsync_full_drops_and_caps c2FullBus c2Event 5 []).1
      (by simp [c2Event]) (by decide)
  · exact (publishAsync_full_drops_and_caps initialEventBus c2Event 0
      (List.replicate 17 (c2Event, 0))).2 rfl (by decide)
      (by
        intro c hc
        rw [List.eq_of_mem_replicate hc]
        simp [c2Event])

end TwiST
